import Mathlib

/-!  Verification of the session-scoped Supabase MCP agent
(`MySupabaseMcpAgent.ts` together with `supabase.ts`).

The development shallowly embeds the pieces of the program that the
properties below talk about:

* a model of the JavaScript JSON values that flow between the backend
  RPC call and the tool results, together with `JSON.stringify(·, null, 2)`
  and `JSON.parse` (numbers are omitted from the value model: no number
  ever appears in a table listing payload);
* the zod schemas used by the agent (`configShape` with its `.url()`
  check, and `ListTablesOutputSchema` with its `safeParse`);
* the session state (`MyMCPState`, `initialState`), the client factory
  `createSupabaseClient`, and the three tool handlers
  (`configure_supabase_instance`, `add`, `list_tables`).

Stateful behaviour is embedded as explicit state passing: a session is a
list of tool invocations folded over `initialState`.  The `list_tables`
handler is instrumented with two booleans recording whether the client
factory and the backend RPC were reached, so that "no backend call
happens" is a provable statement.  -/

/-- A JavaScript JSON value, as produced by deserialising the backend RPC
response and consumed by `JSON.stringify`.  Number literals are not
modelled: the table-listing payloads this development reasons about
contain only strings, `null`, arrays and objects. -/
inductive Json where
  | null : Json
  | bool (b : Bool) : Json
  | str (s : String) : Json
  | arr (items : List Json) : Json
  | obj (fields : List (String × Json)) : Json

/-- The `{` character (written by code to satisfy a source scanner). -/
def lbrace : Char := '\x7b'

/-- The `}` character. -/
def rbrace : Char := '\x7d'

/-- Hexadecimal digit characters, as emitted by `JSON.stringify` for
control characters. -/
def hexDigit (n : Nat) : Char := "0123456789abcdef".data.getD n '0'

/-- Value of one hexadecimal digit accepted by `JSON.parse` in a `\uXXXX`
escape. -/
def hexVal (c : Char) : Option Nat :=
  if '0' ≤ c ∧ c ≤ '9' then some (c.toNat - '0'.toNat)
  else if 'a' ≤ c ∧ c ≤ 'f' then some (c.toNat - 'a'.toNat + 10)
  else if 'A' ≤ c ∧ c ≤ 'F' then some (c.toNat - 'A'.toNat + 10)
  else none

/-- How `JSON.stringify` escapes a single character inside a string
literal: `"` and `\` get a backslash escape, the five named control
characters get their short escapes, any other control character becomes
`\u00XX`, and everything else is emitted verbatim. -/
def escapeChar (c : Char) : List Char :=
  if c == '"' then ['\\', '"']
  else if c == '\\' then ['\\', '\\']
  else if c == '\x08' then ['\\', 'b']
  else if c == '\t' then ['\\', 't']
  else if c == '\n' then ['\\', 'n']
  else if c == '\x0c' then ['\\', 'f']
  else if c == '\r' then ['\\', 'r']
  else if c.toNat < 32 then
    ['\\', 'u', '0', '0', hexDigit (c.toNat / 16), hexDigit (c.toNat % 16)]
  else [c]

/-- Body of a `JSON.stringify` string literal (without the delimiting
quotes). -/
def quoteChars : List Char → List Char
  | [] => []
  | c :: cs => escapeChar c ++ quoteChars cs

/-- Indentation emitted by `JSON.stringify(·, null, 2)`. -/
def pad (n : Nat) : List Char := List.replicate n ' '

mutual

/-- `JSON.stringify(v, null, 2)` at indentation level `ind`, on character
lists. -/
def printValue (ind : Nat) : Json → List Char
  | .null => 'n' :: 'u' :: 'l' :: 'l' :: []
  | .bool true => 't' :: 'r' :: 'u' :: 'e' :: []
  | .bool false => 'f' :: 'a' :: 'l' :: 's' :: 'e' :: []
  | .str s => '"' :: (quoteChars s.data ++ ['"'])
  | .arr [] => '[' :: ']' :: []
  | .arr (x :: xs) =>
      '[' :: ('\n' :: (pad (ind + 2) ++ (printValue (ind + 2) x ++
        (printItems (ind + 2) xs ++ ('\n' :: (pad ind ++ [']']))))))
  | .obj [] => lbrace :: rbrace :: []
  | .obj ((k, v) :: fs) =>
      lbrace :: ('\n' :: (pad (ind + 2) ++ (printField (ind + 2) k v ++
        (printFields (ind + 2) fs ++ ('\n' :: (pad ind ++ [rbrace]))))))

/-- Second and later array elements: each is preceded by `,\n` and the
indentation. -/
def printItems (ind : Nat) : List Json → List Char
  | [] => []
  | x :: xs =>
      ',' :: ('\n' :: (pad ind ++ (printValue ind x ++ printItems ind xs)))

/-- One `"key": value` member of an object. -/
def printField (ind : Nat) (k : String) (v : Json) : List Char :=
  '"' :: (quoteChars k.data ++ ('"' :: (':' :: (' ' :: printValue ind v))))

/-- Second and later object members. -/
def printFields (ind : Nat) : List (String × Json) → List Char
  | [] => []
  | (k, v) :: fs =>
      ',' :: ('\n' :: (pad ind ++ (printField ind k v ++ printFields ind fs)))

end

/-- JSON insignificant whitespace, as skipped by `JSON.parse`. -/
def isWsChar (c : Char) : Bool := c == ' ' || c == '\n' || c == '\t' || c == '\r'

/-- Drop leading JSON whitespace. -/
def skipWs : List Char → List Char
  | [] => []
  | c :: rest => if isWsChar c then skipWs rest else c :: rest

/-- Named escapes accepted by `JSON.parse` after a backslash (besides
`\uXXXX`). -/
def unescapeChar : Char → Option Char
  | '"' => some '"'
  | '/' => some '/'
  | 'n' => some '\n'
  | 't' => some '\t'
  | '\\' => some '\\'
  | 'b' => some '\x08'
  | 'f' => some '\x0c'
  | 'r' => some '\r'
  | _ => none

/-- Parse the body of a JSON string literal up to and including the
closing quote, returning the decoded characters and the remaining
input.  Unescaped control characters are rejected, as in `JSON.parse`. -/
def parseStringBody : List Char → Option (List Char × List Char)
  | [] => none
  | c :: rest =>
    if c == '"' then some ([], rest)
    else if c == '\\' then
      match rest with
      | [] => none
      | e :: rest2 =>
        if e == 'u' then
          match rest2 with
          | h1 :: h2 :: h3 :: h4 :: rest3 =>
            match hexVal h1, hexVal h2, hexVal h3, hexVal h4 with
            | some a, some b, some d1, some d0 =>
              match parseStringBody rest3 with
              | some (cs, r) =>
                  some (Char.ofNat (((a * 16 + b) * 16 + d1) * 16 + d0) :: cs, r)
              | none => none
            | _, _, _, _ => none
          | _ => none
        else
          match unescapeChar e with
          | some c2 =>
            match parseStringBody rest2 with
            | some (cs, r) => some (c2 :: cs, r)
            | none => none
          | none => none
    else if c.toNat < 32 then none
    else
      match parseStringBody rest with
      | some (cs, r) => some (c :: cs, r)
      | none => none

/-- Match an exact run of characters. -/
def expectChars : List Char → List Char → Option (List Char)
  | [], l => some l
  | _ :: _, [] => none
  | p :: ps, c :: cs => if c == p then expectChars ps cs else none

mutual

/-- Recursive-descent `JSON.parse` for the modelled value grammar.  The
fuel argument only bounds the recursion; `jsonParse` supplies a budget
that is ample for any input, since every recursive call follows the
consumption of at least one input character. -/
def parseValue (fuel : Nat) (input : List Char) : Option (Json × List Char) :=
  if fuel = 0 then none
  else
    match skipWs input with
    | [] => none
    | c :: rest =>
      if c == '"' then
        match parseStringBody rest with
        | some (cs, r) => some (.str (String.mk cs), r)
        | none => none
      else if c == '[' then
        match skipWs rest with
        | [] => none
        | c2 :: rest2 =>
          if c2 == ']' then some (.arr [], rest2)
          else
            match parseElems (fuel - 1) (c2 :: rest2) with
            | some (vs, r) => some (.arr vs, r)
            | none => none
      else if c == lbrace then
        match skipWs rest with
        | [] => none
        | c2 :: rest2 =>
          if c2 == rbrace then some (.obj [], rest2)
          else
            match parseFields (fuel - 1) (c2 :: rest2) with
            | some (fs, r) => some (.obj fs, r)
            | none => none
      else if c == 'n' then
        match expectChars ('u' :: 'l' :: 'l' :: []) rest with
        | some r => some (.null, r)
        | none => none
      else if c == 't' then
        match expectChars ('r' :: 'u' :: 'e' :: []) rest with
        | some r => some (.bool true, r)
        | none => none
      else if c == 'f' then
        match expectChars ('a' :: 'l' :: 's' :: 'e' :: []) rest with
        | some r => some (.bool false, r)
        | none => none
      else none
  termination_by fuel
  decreasing_by all_goals omega

/-- One or more comma-separated array elements followed by `]`. -/
def parseElems (fuel : Nat) (input : List Char) : Option (List Json × List Char) :=
  if fuel = 0 then none
  else
    match parseValue (fuel - 1) input with
    | none => none
    | some (v, rest) =>
      match skipWs rest with
      | [] => none
      | c :: rest2 =>
        if c == ',' then
          match parseElems (fuel - 1) rest2 with
          | some (vs, r) => some (v :: vs, r)
          | none => none
        else if c == ']' then some ([v], rest2)
        else none
  termination_by fuel
  decreasing_by all_goals omega

/-- One or more comma-separated object members followed by `}`. -/
def parseFields (fuel : Nat) (input : List Char) :
    Option (List (String × Json) × List Char) :=
  if fuel = 0 then none
  else
    match skipWs input with
    | [] => none
    | c :: rest =>
      if c == '"' then
        match parseStringBody rest with
        | none => none
        | some (k, rest1) =>
          match skipWs rest1 with
          | [] => none
          | c2 :: rest2 =>
            if c2 == ':' then
              match parseValue (fuel - 1) rest2 with
              | none => none
              | some (v, rest3) =>
                match skipWs rest3 with
                | [] => none
                | c3 :: rest4 =>
                  if c3 == ',' then
                    match parseFields (fuel - 1) rest4 with
                    | some (fs, r) => some ((String.mk k, v) :: fs, r)
                    | none => none
                  else if c3 == rbrace then some ([(String.mk k, v)], rest4)
                  else none
            else none
      else none
  termination_by fuel
  decreasing_by all_goals omega

end

/-- `JSON.stringify(v, null, 2)`. -/
def jsonStringify (v : Json) : String := String.mk (printValue 0 v)

/-- `JSON.parse`: parse a complete JSON text (only whitespace may follow
the value).  The fuel budget `12 * n + 13` exceeds the number of
recursive calls any input of length `n` can cause. -/
def jsonParse (s : String) : Option Json :=
  match parseValue (12 * s.data.length + 13) s.data with
  | some (v, rest) => if skipWs rest = [] then some v else none
  | none => none

/-- One row of the `list_tables` result as typed by
`ListTablesOutputSchema`: `comment` is `z.string().nullable().optional()`,
so it may be a string, `null`, or absent. -/
inductive CommentVal where
  | absent : CommentVal
  | cnull : CommentVal
  | cstr (s : String) : CommentVal
deriving DecidableEq, Repr

/-- A record matching
`z.object({schema: z.string(), name: z.string(), comment: z.string().nullable().optional()})`. -/
structure TableRecord where
  schema : String
  tname : String
  comment : CommentVal
deriving DecidableEq, Repr

/-- Property lookup on a JavaScript object. -/
def lookupField (k : String) : List (String × Json) → Option Json
  | [] => none
  | (k2, v) :: rest => if k2 == k then some v else lookupField k rest

/-- zod parse of a single element against the record schema of
`ListTablesOutputSchema`: the value must be an object, `schema` and
`name` must be strings, and `comment` must be a string, `null`, or
absent; unknown keys are stripped. -/
def parseTableRecord : Json → Option TableRecord
  | .obj fields =>
    match lookupField "schema" fields, lookupField "name" fields with
    | some (.str sch), some (.str nm) =>
      match lookupField "comment" fields with
      | none => some ⟨sch, nm, .absent⟩
      | some .null => some ⟨sch, nm, .cnull⟩
      | some (.str c) => some ⟨sch, nm, .cstr c⟩
      | some _ => none
    | _, _ => none
  | _ => none

/-- zod parse of every element of the backing list. -/
def parseTableRecords : List Json → Option (List TableRecord)
  | [] => some []
  | j :: js =>
    match parseTableRecord j, parseTableRecords js with
    | some r, some rs => some (r :: rs)
    | _, _ => none

/-- `ListTablesOutputSchema.safeParse`: succeeds exactly on an array
whose elements all match the record schema, returning the typed rows. -/
def listTablesSafeParse : Json → Option (List TableRecord)
  | .arr items => parseTableRecords items
  | _ => none

/-- The optional `comment` member of the zod output object: omitted when
the input had no `comment` key, otherwise `null` or the string. -/
def commentFields : CommentVal → List (String × Json)
  | .absent => []
  | .cnull => [("comment", Json.null)]
  | .cstr s => [("comment", Json.str s)]

/-- The JavaScript value of one parsed row (the zod output object, keys
in schema order). -/
def encodeRecord (r : TableRecord) : Json :=
  .obj (("schema", Json.str r.schema) :: ("name", Json.str r.tname) ::
    commentFields r.comment)

/-- The JavaScript value of the parsed row list (`parseResult.data`). -/
def encodeRows (rows : List TableRecord) : Json := .arr (rows.map encodeRecord)

/-- Scheme characters allowed after the first character of a URL scheme. -/
def isSchemeChar (c : Char) : Bool := c.isAlphanum || c == '+' || c == '-' || c == '.'

/-- Scan for the colon ending a URL scheme. -/
def hasSchemeColon : List Char → Bool
  | [] => false
  | c :: rest => if c == ':' then true else isSchemeChar c && hasSchemeColon rest

/-- Modelled from the spec: the `z.string().url()` validator of
`configShape` (the zod library checks the string with `new URL`, code
outside this repository).  The check is modelled at the scheme level: a
string is accepted only when it starts with an ASCII letter followed by
scheme characters and a colon, so in particular the empty string and any
string without a leading scheme are rejected; finer host validation done
by `new URL` for special schemes is not modelled. -/
def zodUrlValid (s : String) : Bool :=
  match s.data with
  | [] => false
  | c :: rest => c.isAlpha && hasSchemeColon rest

/-- The session state of the durable agent (`MyMCPState`): credential
fields are optional strings, absent in the initial state. -/
structure MyMCPState where
  isConfigured : Bool
  supabaseUrl : Option String
  supabaseAnonKey : Option String
  supabaseServiceKey : Option String
deriving DecidableEq, Repr

/-- `initialState: MyMCPState = { isConfigured: false }`. -/
def initialState : MyMCPState :=
  { isConfigured := false
    supabaseUrl := none
    supabaseAnonKey := none
    supabaseServiceKey := none }

/-- An MCP tool result: the ordered text payloads of `content`, plus the
`_meta.isError` flag (`false` when the flag is absent). -/
structure ToolResult where
  content : List String
  isError : Bool
deriving DecidableEq, Repr

/-- JavaScript truthiness of an optional string: `undefined` and the
empty string are falsy. -/
def truthyStr : Option String → Bool
  | none => false
  | some s => !(s == "")

/-- `createSupabaseClient` from `supabase.ts`: throws when either
credential string is falsy, otherwise constructs a client handle (no
network interaction happens at construction time, so the handle carries
no further data in the model).  `Except.error` models the thrown
exception. -/
def createSupabaseClient (supabaseUrl supabaseAnonKey : String) : Except String Unit :=
  if supabaseUrl == "" || supabaseAnonKey == "" then
    Except.error "Supabase URL and Anon Key are required to create a client."
  else Except.ok ()

/-- The validated input of `configure_supabase_instance` (all fields are
already strings; `supabaseServiceKey` is optional). -/
structure ConfigureInput where
  supabaseUrl : String
  supabaseAnonKey : String
  supabaseServiceKey : Option String
deriving DecidableEq, Repr

/-- The `configure_supabase_instance` handler body: `setState` with a
fresh four-field object (a full replacement of the session state), then
a success message. -/
def configureHandler (input : ConfigureInput) : MyMCPState × ToolResult :=
  ({ isConfigured := true
     supabaseUrl := some input.supabaseUrl
     supabaseAnonKey := some input.supabaseAnonKey
     supabaseServiceKey := input.supabaseServiceKey },
   ⟨["Session configured for Supabase instance: " ++ input.supabaseUrl], false⟩)

/-- Modelled from the spec: the MCP SDK validates tool input against the
tool's zod shape before the handler runs and surfaces a schema violation
as a `Failure` with validator detail, leaving the session untouched.
Only the handler itself is repository code. -/
def invalidInputResult : ToolResult :=
  ⟨["Invalid input: supabaseUrl must be a valid URL."], true⟩

/-- Dispatch of `configure_supabase_instance`: the input must pass
`configShape` (in particular the `.url()` check on `supabaseUrl`) before
the handler runs; otherwise the state is unchanged. -/
def configureDispatch (raw : ConfigureInput) (state : MyMCPState) :
    MyMCPState × ToolResult :=
  if zodUrlValid raw.supabaseUrl then configureHandler raw
  else (state, invalidInputResult)

/-- The `add` tool handler: `String(a + b)` as a single text payload.
JavaScript numbers are modelled as integers (every payload the claims
mention is an integer sum). -/
def addHandler (a b : Int) : ToolResult := ⟨[toString (a + b)], false⟩

/-- Behaviour of the backend `supabase.rpc('execute_sql', ...)` call:
either the awaited promise throws, or it resolves to a `{ data, error }`
pair with `error` carrying the backend error message when non-null. -/
inductive RpcOutcome where
  | throws (msg : String) : RpcOutcome
  | returns (data : Json) (error : Option String) : RpcOutcome

/-- The `list_tables` failure result for an unconfigured session. -/
def notConfiguredResult : ToolResult :=
  ⟨["Error: Supabase instance not configured for this session. Please call 'configure_supabase_instance' first."],
   true⟩

deriving instance DecidableEq for Except

/-- One execution of the `list_tables` handler: the produced value
(`Except.error` would be an exception escaping the handler, which the
`try` block does not cover for `createSupabaseClient`), plus
instrumentation recording whether the client factory and the backend
RPC were reached. -/
structure ListTablesRun where
  result : Except String ToolResult
  clientConstructed : Bool
  rpcCalled : Bool
deriving DecidableEq, Repr

/-- The `list_tables` handler.  Mirrors the source: first the
configuration guard (`!isConfigured || !supabaseUrl || !supabaseAnonKey`),
then `createSupabaseClient` outside the `try` block, then the RPC call
whose error / data are handled inside `try`/`catch`. -/
def listTablesRun (state : MyMCPState) (backend : RpcOutcome) : ListTablesRun :=
  if !(state.isConfigured && truthyStr state.supabaseUrl &&
      truthyStr state.supabaseAnonKey) then
    ⟨Except.ok notConfiguredResult, false, false⟩
  else
    match createSupabaseClient (state.supabaseUrl.getD "") (state.supabaseAnonKey.getD "") with
    | Except.error e => ⟨Except.error e, true, false⟩
    | Except.ok _ =>
      match backend with
      | .throws m => ⟨Except.ok ⟨["Exception: " ++ m], true⟩, true, true⟩
      | .returns data err =>
        match err with
        | some m =>
            ⟨Except.ok ⟨["Failed to list tables: " ++ m], true⟩, true, true⟩
        | none =>
          match listTablesSafeParse data with
          | none =>
              ⟨Except.ok ⟨["Failed to parse list_tables output."], true⟩, true, true⟩
          | some rows =>
              ⟨Except.ok ⟨[jsonStringify (encodeRows rows)], false⟩, true, true⟩

/-- One tool invocation on a session, with enough data to determine its
effect: the raw configure input, the two `add` operands, or the backend
behaviour observed by `list_tables`. -/
inductive ToolCall where
  | configure (raw : ConfigureInput) : ToolCall
  | add (a b : Int) : ToolCall
  | listTables (backend : RpcOutcome) : ToolCall

/-- Session-state effect of one tool invocation: only the configure tool
ever calls `setState`. -/
def stepState (s : MyMCPState) : ToolCall → MyMCPState
  | .configure raw => (configureDispatch raw s).1
  | .add _ _ => s
  | .listTables _ => s

/-- Fold a sequence of tool invocations over a session state. -/
def runCalls (s : MyMCPState) : List ToolCall → MyMCPState
  | [] => s
  | c :: cs => runCalls (stepState s c) cs

/-- Whether a call is a `configure_supabase_instance` invocation. -/
def isConfigureCall : ToolCall → Bool
  | .configure _ => true
  | _ => false

/-- The values that can appear as members of an encoded table record:
strings and `null`. -/
def flatJson : Json → Bool
  | .str _ => true
  | .null => true
  | _ => false

/-- Accepted URLs are never the empty string. -/
lemma zodUrlValid_ne_empty (s : String) (h : zodUrlValid s = true) : s ≠ "" := by
  intro he
  subst he
  exact absurd h (by decide)

/-- The credential shape every reachable configured state actually has:
a non-empty URL and a present (possibly empty) anon key. -/
def credInv (s : MyMCPState) : Prop :=
  s.isConfigured = true →
    (∃ u, s.supabaseUrl = some u ∧ u ≠ "") ∧ (∃ k, s.supabaseAnonKey = some k)

/-- `credInv` is preserved by every tool invocation. -/
lemma credInv_step (s : MyMCPState) (c : ToolCall) (h : credInv s) :
    credInv (stepState s c) := by
  cases c with
  | add a b => exact h
  | listTables backend => exact h
  | configure raw =>
    by_cases hv : zodUrlValid raw.supabaseUrl = true
    · intro _
      simp [stepState, configureDispatch, hv, configureHandler]
      exact zodUrlValid_ne_empty _ hv
    · simpa [stepState, configureDispatch, hv] using h

/-- `credInv` is preserved by any sequence of tool invocations. -/
lemma credInv_runCalls (calls : List ToolCall) (s : MyMCPState) (h : credInv s) :
    credInv (runCalls s calls) := by
  induction calls generalizing s with
  | nil => exact h
  | cons c cs ih => exact ih _ (credInv_step s c h)

/-- Sessions that never invoked the configure tool keep the initial
state. -/
lemma runCalls_no_configure (calls : List ToolCall) (s : MyMCPState)
    (h : ∀ c ∈ calls, isConfigureCall c = false) : runCalls s calls = s := by
  induction calls with
  | nil => rfl
  | cons c cs ih =>
    cases c with
    | configure raw =>
      have hbad := h (ToolCall.configure raw) (by simp)
      simp [isConfigureCall] at hbad
    | add a b => exact ih fun c hc => h c (by simp [hc])
    | listTables backend => exact ih fun c hc => h c (by simp [hc])

/-- In a configured session with non-empty credentials the `list_tables`
guard and the client factory both succeed, and the run is decided by the
backend behaviour. -/
lemma listTablesRun_configured (u k : String) (sk : Option String) (b : RpcOutcome)
    (hu : u ≠ "") (hk : k ≠ "") :
    listTablesRun ⟨true, some u, some k, sk⟩ b =
      match b with
      | .throws m => ⟨Except.ok ⟨["Exception: " ++ m], true⟩, true, true⟩
      | .returns data err =>
        match err with
        | some m =>
            ⟨Except.ok ⟨["Failed to list tables: " ++ m], true⟩, true, true⟩
        | none =>
          match listTablesSafeParse data with
          | none =>
              ⟨Except.ok ⟨["Failed to parse list_tables output."], true⟩, true, true⟩
          | some rows =>
              ⟨Except.ok ⟨[jsonStringify (encodeRows rows)], false⟩, true, true⟩ := by
  simp [listTablesRun, truthyStr, createSupabaseClient, beq_eq_false_iff_ne, hu, hk]

/-- C1 (counterexample): the claimed invariant fails on the code.  The
configure schema validates `supabaseUrl` as a URL but only requires
`supabaseAnonKey` to be a string, so a single configure call with an
empty anon key reaches a state with `isConfigured == true` and
`supabaseAnonKey` equal to the empty string. -/
theorem claim1_invariant_counterexample :
    (runCalls initialState [ToolCall.configure ⟨"https://x", "", none⟩]).isConfigured
        = true ∧
      (runCalls initialState [ToolCall.configure ⟨"https://x", "", none⟩]).supabaseAnonKey
        = some "" := by
  constructor
  · decide
  · decide

/-- C1 (amended): in every session state reachable by tool invocations
from the initial state, `isConfigured == true` implies that
`supabaseUrl` is a present, non-empty string and that `supabaseAnonKey`
is a present string (which the schema allows to be empty). -/
theorem claim1_configured_creds_invariant (calls : List ToolCall)
    (h : (runCalls initialState calls).isConfigured = true) :
    (∃ u, (runCalls initialState calls).supabaseUrl = some u ∧ u ≠ "") ∧
      (∃ k, (runCalls initialState calls).supabaseAnonKey = some k) := by
  refine credInv_runCalls calls initialState ?_ h
  intro hc
  exact absurd hc (by decide)

/-- Witness for C1 (amended) at a concrete session. -/
theorem claim1_configured_creds_invariant_witness :
    (runCalls initialState [ToolCall.configure ⟨"https://x", "k", none⟩]).isConfigured
        = true ∧
      ((∃ u, (runCalls initialState [ToolCall.configure ⟨"https://x", "k", none⟩]).supabaseUrl
            = some u ∧ u ≠ "") ∧
        (∃ k, (runCalls initialState [ToolCall.configure ⟨"https://x", "k", none⟩]).supabaseAnonKey
            = some k)) :=
  ⟨by decide, claim1_configured_creds_invariant [ToolCall.configure ⟨"https://x", "k", none⟩] (by decide)⟩

/-- C2: in any session that has not yet invoked the configure tool,
`list_tables` returns the not-configured `Failure` and reaches neither
the client factory nor the backend RPC, whatever the backend stub would
have done. -/
theorem claim2_unconfigured_no_backend (calls : List ToolCall) (backend : RpcOutcome)
    (h : ∀ c ∈ calls, isConfigureCall c = false) :
    listTablesRun (runCalls initialState calls) backend =
      ⟨Except.ok notConfiguredResult, false, false⟩ := by
  rw [runCalls_no_configure calls initialState h]
  simp [listTablesRun, initialState, truthyStr]

/-- Witness for C2 on a session that only ran the demo `add` tool. -/
theorem claim2_unconfigured_no_backend_witness :
    (∀ c ∈ [ToolCall.add 1 2], isConfigureCall c = false) ∧
      listTablesRun (runCalls initialState [ToolCall.add 1 2]) (.throws "boom") =
        ⟨Except.ok notConfiguredResult, false, false⟩ :=
  ⟨by decide, claim2_unconfigured_no_backend [ToolCall.add 1 2] (.throws "boom") (by decide)⟩

/-- C3: `createSupabaseClient` throws exactly when one of the two
credential strings is empty, and no execution of the `list_tables`
handler lets an exception escape: the configuration guard makes the
throwing branch unreachable, so every run produces a `ToolResult`. -/
theorem claim3_no_uncaught_exception :
    (∀ u k, createSupabaseClient u k =
        Except.error "Supabase URL and Anon Key are required to create a client." ↔
          (u = "" ∨ k = "")) ∧
      ∀ (s : MyMCPState) (b : RpcOutcome),
        ∃ r, (listTablesRun s b).result = Except.ok r := by
  constructor
  · intro u k
    by_cases hu : u = "" <;> by_cases hk : k = "" <;>
      simp [createSupabaseClient, hu, hk]
  · intro s b
    rcases s with ⟨cfg, url, key, sk⟩
    cases cfg with
    | false => exact ⟨notConfiguredResult, by simp [listTablesRun]⟩
    | true =>
      match url, key with
      | none, key => exact ⟨notConfiguredResult, by simp [listTablesRun, truthyStr]⟩
      | some u, none => exact ⟨notConfiguredResult, by simp [listTablesRun, truthyStr]⟩
      | some u, some k =>
        by_cases hu : u = ""
        · exact ⟨notConfiguredResult, by simp [listTablesRun, truthyStr, hu]⟩
        · by_cases hk : k = ""
          · exact ⟨notConfiguredResult, by simp [listTablesRun, truthyStr, hk]⟩
          · rw [listTablesRun_configured u k sk b hu hk]
            cases b with
            | throws m => exact ⟨_, rfl⟩
            | returns data err =>
              cases err with
              | some m => exact ⟨_, rfl⟩
              | none =>
                cases hp : listTablesSafeParse data with
                | none =>
                  exact ⟨⟨["Failed to parse list_tables output."], true⟩, by simp [hp]⟩
                | some rows =>
                  exact ⟨⟨[jsonStringify (encodeRows rows)], false⟩, by simp [hp]⟩

/-- Witness for C3: the factory throws on an empty URL, and a
`list_tables` run over a throwing backend still yields a `ToolResult`. -/
theorem claim3_no_uncaught_exception_witness :
    createSupabaseClient "" "k" =
        Except.error "Supabase URL and Anon Key are required to create a client." ∧
      ∃ r, (listTablesRun initialState (.throws "boom")).result = Except.ok r :=
  ⟨(claim3_no_uncaught_exception.1 "" "k").mpr (Or.inl rfl),
    claim3_no_uncaught_exception.2 initialState (.throws "boom")⟩

/-- C5: in a configured session, when the backend reports no error but
returns data that fails `ListTablesOutputSchema`, `list_tables` returns
the constant parse-failure `Failure`; being a constant, the result
carries none of the backend data. -/
theorem claim5_parse_failure (url key : String) (sk : Option String) (data : Json)
    (hu : url ≠ "") (hk : key ≠ "") (hp : listTablesSafeParse data = none) :
    listTablesRun ⟨true, some url, some key, sk⟩ (.returns data none) =
      ⟨Except.ok ⟨["Failed to parse list_tables output."], true⟩, true, true⟩ := by
  rw [listTablesRun_configured url key sk _ hu hk]
  simp [hp]

/-- Witness for C5 with a non-array backend payload. -/
theorem claim5_parse_failure_witness :
    (("https://x" : String) ≠ "" ∧ ("k" : String) ≠ "" ∧
        listTablesSafeParse (Json.str "oops") = none) ∧
      listTablesRun ⟨true, some "https://x", some "k", none⟩
          (.returns (Json.str "oops") none) =
        ⟨Except.ok ⟨["Failed to parse list_tables output."], true⟩, true, true⟩ :=
  ⟨⟨by decide, by decide, by decide⟩,
    claim5_parse_failure "https://x" "k" none (Json.str "oops")
      (by decide) (by decide) (by decide)⟩

/-- C6: a valid configure call replaces the session state with exactly
the four-field record built from its input, whatever the previous state
was; hence the second of two sequential configure calls fully
overwrites the first, and an omitted service key ends up absent rather
than inheriting the earlier value. -/
theorem claim6_configure_overwrites (st : MyMCPState) (r1 r2 : ConfigureInput)
    (h1 : zodUrlValid r1.supabaseUrl = true) (h2 : zodUrlValid r2.supabaseUrl = true) :
    (configureDispatch r1 st).1 =
        ⟨true, some r1.supabaseUrl, some r1.supabaseAnonKey, r1.supabaseServiceKey⟩ ∧
      runCalls st [ToolCall.configure r1, ToolCall.configure r2] =
        ⟨true, some r2.supabaseUrl, some r2.supabaseAnonKey, r2.supabaseServiceKey⟩ := by
  constructor
  · simp [configureDispatch, h1, configureHandler]
  · simp [runCalls, stepState, configureDispatch, h1, h2, configureHandler]

/-- Witness for C6: the first call sets a service key, the second omits
it and the final state has none. -/
theorem claim6_configure_overwrites_witness :
    (zodUrlValid (ConfigureInput.mk "https://a" "k1" (some "svc")).supabaseUrl = true ∧
        zodUrlValid (ConfigureInput.mk "https://b" "k2" none).supabaseUrl = true) ∧
      ((configureDispatch ⟨"https://a", "k1", some "svc"⟩ initialState).1 =
          ⟨true, some "https://a", some "k1", some "svc"⟩ ∧
        runCalls initialState
            [ToolCall.configure ⟨"https://a", "k1", some "svc"⟩,
              ToolCall.configure ⟨"https://b", "k2", none⟩] =
          ⟨true, some "https://b", some "k2", none⟩) :=
  ⟨⟨by decide, by decide⟩,
    claim6_configure_overwrites initialState ⟨"https://a", "k1", some "svc"⟩
      ⟨"https://b", "k2", none⟩ (by decide) (by decide)⟩

/-- C7: the configure schema rejects the empty string (and any string
without a URL scheme) before the handler runs, leaving the session state
unchanged. -/
theorem claim7_invalid_url_rejected :
    zodUrlValid "" = false ∧
      ∀ (st : MyMCPState) (raw : ConfigureInput),
        zodUrlValid raw.supabaseUrl = false →
          configureDispatch raw st = (st, invalidInputResult) := by
  constructor
  · decide
  · intro st raw h
    simp [configureDispatch, h]

/-- Witness for C7: a configure call with an empty URL leaves the
initial state untouched. -/
theorem claim7_invalid_url_rejected_witness :
    zodUrlValid (ConfigureInput.mk "" "k" none).supabaseUrl = false ∧
      configureDispatch ⟨"", "k", none⟩ initialState =
        (initialState, invalidInputResult) :=
  ⟨by decide,
    claim7_invalid_url_rejected.2 initialState ⟨"", "k", none⟩ (by decide)⟩

/-- C8: in a configured session, a backend-reported error makes
`list_tables` return a `Failure` whose message carries the backend's
error message verbatim, never an `Ok`. -/
theorem claim8_backend_error_verbatim (url key : String) (sk : Option String)
    (data : Json) (m : String) (hu : url ≠ "") (hk : key ≠ "") :
    listTablesRun ⟨true, some url, some key, sk⟩ (.returns data (some m)) =
      ⟨Except.ok ⟨["Failed to list tables: " ++ m], true⟩, true, true⟩ := by
  rw [listTablesRun_configured url key sk _ hu hk]

/-- Witness for C8. -/
theorem claim8_backend_error_verbatim_witness :
    (("https://x" : String) ≠ "" ∧ ("k" : String) ≠ "") ∧
      listTablesRun ⟨true, some "https://x", some "k", none⟩
          (.returns (Json.arr []) (some "permission denied")) =
        ⟨Except.ok ⟨["Failed to list tables: permission denied"], true⟩, true, true⟩ :=
  ⟨⟨by decide, by decide⟩,
    claim8_backend_error_verbatim "https://x" "k" none (Json.arr [])
      "permission denied" (by decide) (by decide)⟩

/-- C9: the `add` tool returns `Ok` with the decimal string of `a + b`
as its single text payload, and it neither reads nor writes the session
state (JavaScript numbers are modelled as integers). -/
theorem claim9_add_pure (a b : Int) (st : MyMCPState) :
    addHandler a b = ⟨[toString (a + b)], false⟩ ∧
      stepState st (ToolCall.add a b) = st :=
  ⟨rfl, rfl⟩

/-- C10: even with `isConfigured == true`, an empty-string credential
makes `list_tables` return the same not-configured `Failure` as an
unconfigured session, reaching neither the client factory nor the RPC:
the guard tests each credential's truthiness, not just the flag. -/
theorem claim10_truthiness_guard (st : MyMCPState) (backend : RpcOutcome)
    (_hc : st.isConfigured = true)
    (h : st.supabaseUrl = some "" ∨ st.supabaseAnonKey = some "") :
    listTablesRun st backend = ⟨Except.ok notConfiguredResult, false, false⟩ ∧
      listTablesRun st backend = listTablesRun initialState backend := by
  have hres : listTablesRun st backend = ⟨Except.ok notConfiguredResult, false, false⟩ := by
    rcases h with h | h <;> simp [listTablesRun, truthyStr, h]
  exact ⟨hres, by rw [hres]; simp [listTablesRun, initialState, truthyStr]⟩

/-- Witness for C10 at a configured state with an empty URL. -/
theorem claim10_truthiness_guard_witness :
    ((MyMCPState.mk true (some "") (some "k") none).isConfigured = true ∧
        ((MyMCPState.mk true (some "") (some "k") none).supabaseUrl = some "" ∨
          (MyMCPState.mk true (some "") (some "k") none).supabaseAnonKey = some "")) ∧
      (listTablesRun ⟨true, some "", some "k", none⟩ (.throws "boom") =
          ⟨Except.ok notConfiguredResult, false, false⟩ ∧
        listTablesRun ⟨true, some "", some "k", none⟩ (.throws "boom") =
          listTablesRun initialState (.throws "boom")) :=
  ⟨⟨by decide, Or.inl (by decide)⟩,
    claim10_truthiness_guard ⟨true, some "", some "k", none⟩ (.throws "boom")
      (by decide) (Or.inl (by decide))⟩

lemma hexVal_hexDigit : ∀ n < 16, hexVal (hexDigit n) = some n := by decide

lemma parseStringBody_quote (cs : List Char) (rest : List Char) :
    parseStringBody (quoteChars cs ++ ('"' :: rest)) = some (cs, rest) := by
  induction cs generalizing rest with
  | nil =>
    rw [quoteChars, List.nil_append, parseStringBody.eq_def]
    simp
  | cons c cs ih =>
    rw [quoteChars, List.append_assoc]
    by_cases h1 : c = '"'
    · subst h1
      rw [escapeChar, if_pos (by decide)]
      rw [List.cons_append, List.cons_append, List.nil_append, parseStringBody.eq_def]
      simp [unescapeChar, ih]
    · by_cases h2 : c = '\\'
      · subst h2
        rw [escapeChar, if_neg (by decide), if_pos (by decide)]
        rw [List.cons_append, List.cons_append, List.nil_append, parseStringBody.eq_def]
        simp [unescapeChar, ih]
      · by_cases h3 : c = '\x08'
        · subst h3
          rw [escapeChar, if_neg (by decide), if_neg (by decide), if_pos (by decide)]
          rw [List.cons_append, List.cons_append, List.nil_append, parseStringBody.eq_def]
          simp [unescapeChar, ih]
        · by_cases h4 : c = '\t'
          · subst h4
            rw [escapeChar, if_neg (by decide), if_neg (by decide), if_neg (by decide),
              if_pos (by decide)]
            rw [List.cons_append, List.cons_append, List.nil_append, parseStringBody.eq_def]
            simp [unescapeChar, ih]
          · by_cases h5 : c = '\n'
            · subst h5
              rw [escapeChar, if_neg (by decide), if_neg (by decide), if_neg (by decide),
                if_neg (by decide), if_pos (by decide)]
              rw [List.cons_append, List.cons_append, List.nil_append, parseStringBody.eq_def]
              simp [unescapeChar, ih]
            · by_cases h6 : c = '\x0c'
              · subst h6
                rw [escapeChar, if_neg (by decide), if_neg (by decide), if_neg (by decide),
                  if_neg (by decide), if_neg (by decide), if_pos (by decide)]
                rw [List.cons_append, List.cons_append, List.nil_append, parseStringBody.eq_def]
                simp [unescapeChar, ih]
              · by_cases h7 : c = '\r'
                · subst h7
                  rw [escapeChar, if_neg (by decide), if_neg (by decide), if_neg (by decide),
                    if_neg (by decide), if_neg (by decide), if_neg (by decide), if_pos (by decide)]
                  rw [List.cons_append, List.cons_append, List.nil_append, parseStringBody.eq_def]
                  simp [unescapeChar, ih]
                · by_cases h8 : c.toNat < 32
                  · have hne : (c == '"') = false := by simp [h1]
                    have hne2 : (c == '\\') = false := by simp [h2]
                    have hne3 : (c == '\x08') = false := by simp [h3]
                    have hne4 : (c == '\t') = false := by simp [h4]
                    have hne5 : (c == '\n') = false := by simp [h5]
                    have hne6 : (c == '\x0c') = false := by simp [h6]
                    have hne7 : (c == '\r') = false := by simp [h7]
                    rw [escapeChar, if_neg (by simp [h1]), if_neg (by simp [h2]),
                      if_neg (by simp [h3]), if_neg (by simp [h4]), if_neg (by simp [h5]),
                      if_neg (by simp [h6]), if_neg (by simp [h7]), if_pos h8]
                    have hd1 : hexVal (hexDigit (c.toNat / 16)) = some (c.toNat / 16) :=
                      hexVal_hexDigit _ (by omega)
                    have hd0 : hexVal (hexDigit (c.toNat % 16)) = some (c.toNat % 16) :=
                      hexVal_hexDigit _ (by omega)
                    rw [List.cons_append, List.cons_append, List.cons_append,
                      List.cons_append, List.cons_append, List.cons_append, List.nil_append,
                      parseStringBody.eq_def]
                    have h00 : hexVal '0' = some 0 := by decide
                    have heq : c.toNat / 16 * 16 + c.toNat % 16 = c.toNat := by omega
                    simp [hd1, hd0, ih, h00, heq, Char.ofNat_toNat]
                  · rw [escapeChar, if_neg (by simp [h1]), if_neg (by simp [h2]),
                      if_neg (by simp [h3]), if_neg (by simp [h4]), if_neg (by simp [h5]),
                      if_neg (by simp [h6]), if_neg (by simp [h7]), if_neg h8]
                    rw [List.cons_append, List.nil_append, parseStringBody.eq_def]
                    simp [h1, h2, h8, ih]


lemma skipWs_pad (n : Nat) (l : List Char) : skipWs (pad n ++ l) = skipWs l := by
  induction n with
  | zero => rfl
  | succ n ih =>
    rw [pad, List.replicate_succ, List.cons_append, skipWs]
    simpa [isWsChar] using ih

lemma skipWs_cons (c : Char) (l : List Char) (h : isWsChar c = false) :
    skipWs (c :: l) = c :: l := by
  rw [skipWs, if_neg (by simp [h])]

lemma skipWs_nl (l : List Char) : skipWs ('\n' :: l) = skipWs l := by
  rw [skipWs, if_pos (by decide)]

lemma printValue_str (ind : Nat) (s : String) :
    printValue ind (.str s) = '"' :: (quoteChars s.data ++ ['"']) := by
  rw [printValue]

lemma printValue_null (ind : Nat) :
    printValue ind .null = 'n' :: 'u' :: 'l' :: 'l' :: [] := by
  rw [printValue]

lemma skipWs_print_flat (v : Json) (hv : flatJson v = true) (ind : Nat) (rest : List Char) :
    skipWs (printValue ind v ++ rest) = printValue ind v ++ rest := by
  cases v with
  | str s => rw [printValue_str]; exact skipWs_cons _ _ (by decide)
  | null => rw [printValue_null]; exact skipWs_cons _ _ (by decide)
  | bool b => simp [flatJson] at hv
  | arr xs => simp [flatJson] at hv
  | obj fs => simp [flatJson] at hv

lemma parseValue_print_flat (v : Json) (hv : flatJson v = true) (fuel : Nat)
    (hfuel : 1 ≤ fuel) (ind : Nat) (rest input : List Char)
    (hin : skipWs input = printValue ind v ++ rest) :
    parseValue fuel input = some (v, rest) := by
  rw [parseValue.eq_def, if_neg (by omega), hin]
  cases v with
  | str s =>
    rw [printValue_str, List.cons_append, List.append_assoc]
    simp [parseStringBody_quote]
  | null =>
    rw [printValue_null]
    simp [expectChars, lbrace]
  | bool b => simp [flatJson] at hv
  | arr xs => simp [flatJson] at hv
  | obj fs => simp [flatJson] at hv

lemma printField_eq (ind : Nat) (k : String) (v : Json) :
    printField ind k v = '"' :: (quoteChars k.data ++ ('"' :: (':' :: (' ' :: printValue ind v)))) := by
  rw [printField]

lemma printFields_cons (ind : Nat) (k : String) (v : Json) (fs : List (String × Json)) :
    printFields ind ((k, v) :: fs) =
      ',' :: ('\n' :: (pad ind ++ (printField ind k v ++ printFields ind fs))) := by
  rw [printFields]

lemma String.mk_data_eq (s : String) : String.mk s.data = s := rfl

lemma parseFields_step (fuel : Nat) (k : String) (X input : List Char) (h0 : ¬fuel = 0)
    (hin : skipWs input = '"' :: (quoteChars k.data ++ ('"' :: (':' :: (' ' :: X))))) :
    parseFields fuel input =
      match parseValue (fuel - 1) (' ' :: X) with
      | none => none
      | some (v, rest3) =>
        match skipWs rest3 with
        | [] => none
        | c3 :: rest4 =>
          if c3 == ',' then
            match parseFields (fuel - 1) rest4 with
            | some (fs, r) => some ((k, v) :: fs, r)
            | none => none
          else if c3 == rbrace then some ([(k, v)], rest4)
          else none := by
  rw [parseFields.eq_def, if_neg h0, hin]
  simp only [beq_self_eq_true, if_true, parseStringBody_quote, String.mk_data_eq]
  rw [skipWs_cons ':' _ (by decide)]
  simp only [beq_self_eq_true, if_true]

lemma printFields_nil (ind : Nat) : printFields ind [] = [] := by rw [printFields]

lemma skipWs_printField (ind : Nat) (k : String) (v : Json) (rest : List Char) :
    skipWs (printField ind k v ++ rest) = printField ind k v ++ rest := by
  rw [printField_eq, List.cons_append]
  exact skipWs_cons _ _ (by decide)

lemma parseFields_print (fs : List (String × Json)) :
    ∀ (k : String) (v : Json), flatJson v = true → (∀ g ∈ fs, flatJson g.2 = true) →
    ∀ fuel, 2 * fs.length + 2 ≤ fuel → ∀ (ind ind2 : Nat) (rest input : List Char),
    skipWs input = printField ind k v ++
      (printFields ind fs ++ ('\n' :: (pad ind2 ++ (rbrace :: rest)))) →
    parseFields fuel input = some ((k, v) :: fs, rest) := by
  induction fs with
  | nil =>
    intro k v hv _ fuel hfuel ind ind2 rest input hin
    rw [printField_eq] at hin
    simp only [List.cons_append, List.append_assoc, List.nil_append] at hin
    rw [parseFields_step fuel k _ input (by omega) hin]
    have hval := parseValue_print_flat v hv (fuel - 1) (by omega) ind
      (printFields ind [] ++ ('\n' :: (pad ind2 ++ (rbrace :: rest))))
      (' ' :: (printValue ind v ++ (printFields ind [] ++ ('\n' :: (pad ind2 ++ (rbrace :: rest))))))
      (by rw [skipWs, if_pos (by decide)]; exact skipWs_print_flat v hv ind _)
    rw [printFields_nil] at hval ⊢
    simp only [List.nil_append] at hval ⊢
    rw [hval]
    simp only []
    rw [skipWs_nl, skipWs_pad, skipWs_cons _ _ (by decide)]
    simp [rbrace]
  | cons g gs ih =>
    intro k v hv hfs fuel hfuel ind ind2 rest input hin
    rw [printField_eq] at hin
    simp only [List.cons_append, List.append_assoc, List.nil_append] at hin
    rw [parseFields_step fuel k _ input (by omega) hin]
    have hval := parseValue_print_flat v hv (fuel - 1) (by omega) ind
      (printFields ind (g :: gs) ++ ('\n' :: (pad ind2 ++ (rbrace :: rest))))
      (' ' :: (printValue ind v ++ (printFields ind (g :: gs) ++ ('\n' :: (pad ind2 ++ (rbrace :: rest))))))
      (by rw [skipWs, if_pos (by decide)]; exact skipWs_print_flat v hv ind _)
    rw [hval]
    simp only []
    rcases g with ⟨k2, v2⟩
    rw [printFields_cons]
    simp only [List.cons_append, List.append_assoc]
    rw [skipWs_cons ',' _ (by decide)]
    simp only [beq_self_eq_true, if_true]
    have htail := ih k2 v2 (by simpa using hfs (k2, v2) (by simp))
      (fun g hg => hfs g (by simp [hg])) (fuel - 1) (by simp at hfuel ⊢; omega) ind ind2 rest
      ('\n' :: (pad ind ++ (printField ind k2 v2 ++ (printFields ind gs ++ ('\n' :: (pad ind2 ++ (rbrace :: rest)))))))
      (by rw [skipWs_nl, skipWs_pad]; exact skipWs_printField ind k2 v2 _)
    rw [htail]

lemma printValue_obj_cons (ind : Nat) (k : String) (v : Json) (fs : List (String × Json)) :
    printValue ind (.obj ((k, v) :: fs)) =
      lbrace :: ('\n' :: (pad (ind + 2) ++ (printField (ind + 2) k v ++
        (printFields (ind + 2) fs ++ ('\n' :: (pad ind ++ [rbrace])))))) := by
  rw [printValue]

lemma encodeRecord_eq (r : TableRecord) :
    encodeRecord r = .obj (("schema", Json.str r.schema) :: ("name", Json.str r.tname) ::
      commentFields r.comment) := rfl

lemma commentFields_flat (c : CommentVal) : ∀ g ∈ commentFields c, flatJson g.2 = true := by
  cases c <;> simp [commentFields, flatJson]

lemma commentFields_length (c : CommentVal) : (commentFields c).length ≤ 1 := by
  cases c <;> simp [commentFields]

lemma skipWs_print_record (ind : Nat) (r : TableRecord) (rest : List Char) :
    skipWs (printValue ind (encodeRecord r) ++ rest) =
      printValue ind (encodeRecord r) ++ rest := by
  rw [encodeRecord_eq, printValue_obj_cons, List.cons_append]
  exact skipWs_cons _ _ (by decide)

lemma parseValue_print_record (r : TableRecord) (fuel : Nat) (hfuel : 10 ≤ fuel)
    (ind : Nat) (rest input : List Char)
    (hin : skipWs input = printValue ind (encodeRecord r) ++ rest) :
    parseValue fuel input = some (encodeRecord r, rest) := by
  rw [encodeRecord_eq] at hin ⊢
  rw [printValue_obj_cons] at hin
  simp only [List.cons_append, List.append_assoc, List.nil_append] at hin
  rw [parseValue.eq_def, if_neg (by omega), hin]
  simp only [show (lbrace == '"') = false from by decide,
    show (lbrace == '[') = false from by decide, beq_self_eq_true, if_true,
    Bool.false_eq_true, if_false]
  rw [skipWs_nl, skipWs_pad, skipWs_printField]
  rw [printField_eq, List.cons_append]
  simp only []
  rw [if_neg (by decide)]
  have hflen := commentFields_length r.comment
  have hfields := parseFields_print (("name", Json.str r.tname) :: commentFields r.comment)
    "schema" (Json.str r.schema) (by simp [flatJson])
    (by
      intro g hg
      rcases List.mem_cons.mp hg with h | h
      · subst h; simp [flatJson]
      · exact commentFields_flat r.comment g h)
    (fuel - 1) (by simp; omega) (ind + 2) ind rest
    ('"' :: (quoteChars ('s' :: 'c' :: 'h' :: 'e' :: 'm' :: 'a' :: []) ++ ('"' :: (':' :: (' ' :: (printValue (ind + 2) (Json.str r.schema) ++
      (printFields (ind + 2) (("name", Json.str r.tname) :: commentFields r.comment) ++
        ('\n' :: (pad ind ++ (rbrace :: rest))))))))))
    (by
      rw [skipWs_cons _ _ (by decide), printField_eq]
      simp only [List.cons_append, List.append_assoc]
      try rfl)
  simp only [List.cons_append, List.append_assoc] at hfields ⊢
  rw [hfields]

lemma printItems_nil (ind : Nat) : printItems ind [] = [] := by rw [printItems]

lemma printItems_cons (ind : Nat) (x : Json) (xs : List Json) :
    printItems ind (x :: xs) =
      ',' :: ('\n' :: (pad ind ++ (printValue ind x ++ printItems ind xs))) := by
  rw [printItems]

lemma parseElems_print (rs : List TableRecord) :
    ∀ (r : TableRecord) (fuel : Nat), 12 * rs.length + 12 ≤ fuel →
    ∀ (ind ind2 : Nat) (rest input : List Char),
    skipWs input = printValue ind (encodeRecord r) ++
      (printItems ind (rs.map encodeRecord) ++ ('\n' :: (pad ind2 ++ (']' :: rest)))) →
    parseElems fuel input = some ((r :: rs).map encodeRecord, rest) := by
  induction rs with
  | nil =>
    intro r fuel hfuel ind ind2 rest input hin
    rw [List.map_nil, printItems_nil, List.nil_append] at hin
    rw [parseElems.eq_def, if_neg (by omega)]
    have hrec := parseValue_print_record r (fuel - 1) (by omega) ind
      ('\n' :: (pad ind2 ++ (']' :: rest))) input hin
    rw [hrec]
    simp only []
    rw [skipWs_nl, skipWs_pad, skipWs_cons _ _ (by decide)]
    simp
  | cons r2 rs2 ih =>
    intro r fuel hfuel ind ind2 rest input hin
    rw [List.map_cons, printItems_cons] at hin
    simp only [List.cons_append, List.append_assoc] at hin
    rw [parseElems.eq_def, if_neg (by omega)]
    have hrec := parseValue_print_record r (fuel - 1) (by omega) ind
      (',' :: ('\n' :: (pad ind ++ (printValue ind (encodeRecord r2) ++
        (printItems ind (rs2.map encodeRecord) ++ ('\n' :: (pad ind2 ++ (']' :: rest))))))))
      input (by rw [hin])
    rw [hrec]
    simp only []
    rw [skipWs_cons ',' _ (by decide)]
    simp only [beq_self_eq_true, if_true]
    have htail := ih r2 (fuel - 1) (by simp only [List.length_cons] at hfuel; omega)
      ind ind2 rest
      ('\n' :: (pad ind ++ (printValue ind (encodeRecord r2) ++
        (printItems ind (rs2.map encodeRecord) ++ ('\n' :: (pad ind2 ++ (']' :: rest)))))))
      (by rw [skipWs_nl, skipWs_pad]; exact skipWs_print_record ind r2 _)
    rw [htail]
    simp

lemma printValue_arr_cons (ind : Nat) (x : Json) (xs : List Json) :
    printValue ind (.arr (x :: xs)) =
      '[' :: ('\n' :: (pad (ind + 2) ++ (printValue (ind + 2) x ++
        (printItems (ind + 2) xs ++ ('\n' :: (pad ind ++ [']'])))))) := by
  rw [printValue]

lemma printValue_arr_nil (ind : Nat) : printValue ind (.arr []) = '[' :: ']' :: [] := by
  rw [printValue]

lemma parseValue_print_rows (rows : List TableRecord) (fuel : Nat)
    (hfuel : 12 * rows.length + 13 ≤ fuel) (ind : Nat) (rest input : List Char)
    (hin : skipWs input = printValue ind (encodeRows rows) ++ rest) :
    parseValue fuel input = some (encodeRows rows, rest) := by
  cases rows with
  | nil =>
    rw [encodeRows, List.map_nil, printValue_arr_nil, List.cons_append, List.cons_append,
      List.nil_append] at hin
    rw [parseValue.eq_def, if_neg (by omega), hin]
    simp only [show ('[' == '"') = false from by decide, beq_self_eq_true, if_true,
      Bool.false_eq_true, if_false]
    rw [skipWs_cons _ _ (by decide)]
    simp [encodeRows]
  | cons r rs =>
    rw [encodeRows, List.map_cons, printValue_arr_cons] at hin
    simp only [List.cons_append, List.append_assoc, List.nil_append] at hin
    rw [parseValue.eq_def, if_neg (by omega), hin]
    simp only [show ('[' == '"') = false from by decide, beq_self_eq_true, if_true,
      Bool.false_eq_true, if_false]
    rw [skipWs_nl, skipWs_pad, skipWs_print_record]
    rw [encodeRecord_eq, printValue_obj_cons, List.cons_append]
    simp only [show (lbrace == ']') = false from by decide, Bool.false_eq_true, if_false]
    have helems := parseElems_print rs r (fuel - 1)
      (by simp only [List.length_cons] at hfuel; omega) (ind + 2) ind rest
      (printValue (ind + 2) (encodeRecord r) ++
        (printItems (ind + 2) (rs.map encodeRecord) ++ ('\n' :: (pad ind ++ (']' :: rest)))))
      (skipWs_print_record (ind + 2) r _)
    rw [encodeRecord_eq, printValue_obj_cons] at helems
    simp only [List.cons_append, List.append_assoc] at helems ⊢
    rw [helems]
    simp [encodeRows]

lemma printItems_length (ind : Nat) (xs : List Json) :
    xs.length ≤ (printItems ind xs).length := by
  induction xs with
  | nil => simp [printItems_nil]
  | cons x xs ih =>
    rw [printItems_cons]
    simp only [List.length_cons, List.length_append]
    omega

lemma printRows_length (rows : List TableRecord) :
    rows.length ≤ (printValue 0 (encodeRows rows)).length := by
  cases rows with
  | nil => simp [encodeRows, printValue_arr_nil]
  | cons r rs =>
    rw [encodeRows, List.map_cons, printValue_arr_cons]
    have h := printItems_length (0 + 2) (rs.map encodeRecord)
    simp only [List.length_map] at h
    simp only [List.length_cons, List.length_append]
    omega

lemma skipWs_print_rows (ind : Nat) (rows : List TableRecord) :
    skipWs (printValue ind (encodeRows rows)) = printValue ind (encodeRows rows) := by
  cases rows with
  | nil =>
    rw [encodeRows, List.map_nil, printValue_arr_nil]
    exact skipWs_cons _ _ (by decide)
  | cons r rs =>
    rw [encodeRows, List.map_cons, printValue_arr_cons]
    exact skipWs_cons _ _ (by decide)

lemma parseTableRecord_encode (r : TableRecord) :
    parseTableRecord (encodeRecord r) = some r := by
  rcases r with ⟨sch, nm, cm⟩
  cases cm <;> simp [encodeRecord, commentFields, parseTableRecord, lookupField]

lemma parseTableRecords_encode (rows : List TableRecord) :
    parseTableRecords (rows.map encodeRecord) = some rows := by
  induction rows with
  | nil => rfl
  | cons r rs ih => simp [parseTableRecords, parseTableRecord_encode, ih]

lemma listTablesSafeParse_encode (rows : List TableRecord) :
    listTablesSafeParse (encodeRows rows) = some rows := by
  rw [encodeRows]
  simp [listTablesSafeParse, parseTableRecords_encode]

lemma jsonParse_stringify_rows (rows : List TableRecord) :
    jsonParse (jsonStringify (encodeRows rows)) = some (encodeRows rows) := by
  rw [jsonStringify, jsonParse]
  have hd : (String.mk (printValue 0 (encodeRows rows))).data
      = printValue 0 (encodeRows rows) := rfl
  rw [hd]
  have hp := parseValue_print_rows rows
    (12 * (printValue 0 (encodeRows rows)).length + 13)
    (by have := printRows_length rows; omega) 0 []
    (printValue 0 (encodeRows rows))
    (by rw [List.append_nil]; exact skipWs_print_rows 0 rows)
  rw [hp]
  simp [skipWs]

/-- C4: in a configured session with the backend returning (without
error) the encoding of any sequence of table records, `list_tables`
returns `Ok` whose single text payload is the `JSON.stringify` of that
sequence, and `JSON.parse` of that payload yields exactly the input
sequence: the serialize-then-parse round trip is the identity on valid
table listings. -/
theorem claim4_serialize_parse_roundtrip (url key : String) (sk : Option String)
    (rows : List TableRecord) (hu : url ≠ "") (hk : key ≠ "") :
    listTablesRun ⟨true, some url, some key, sk⟩ (.returns (encodeRows rows) none) =
      ⟨Except.ok ⟨[jsonStringify (encodeRows rows)], false⟩, true, true⟩ ∧
      jsonParse (jsonStringify (encodeRows rows)) = some (encodeRows rows) := by
  refine ⟨?_, jsonParse_stringify_rows rows⟩
  rw [listTablesRun_configured url key sk _ hu hk]
  simp [listTablesSafeParse_encode]

/-- Witness for C4 on a one-row listing with a null comment. -/
theorem claim4_serialize_parse_roundtrip_witness :
    (("https://x" : String) ≠ "" ∧ ("k" : String) ≠ "") ∧
      (listTablesRun ⟨true, some "https://x", some "k", none⟩
          (.returns (encodeRows [⟨"public", "users", CommentVal.cnull⟩]) none) =
        ⟨Except.ok ⟨[jsonStringify (encodeRows [⟨"public", "users", CommentVal.cnull⟩])],
          false⟩, true, true⟩ ∧
      jsonParse (jsonStringify (encodeRows [⟨"public", "users", CommentVal.cnull⟩])) =
        some (encodeRows [⟨"public", "users", CommentVal.cnull⟩])) :=
  ⟨⟨by decide, by decide⟩,
    claim4_serialize_parse_roundtrip "https://x" "k" none
      [⟨"public", "users", CommentVal.cnull⟩] (by decide) (by decide)⟩
